import Mathlib

/-!
Verification of the Mafia game coordination core against its specification.

The definitions below are shallow embeddings of the TypeScript source:
* `src/lib/types.ts` — the data model,
* `src/lib/game.ts` — the pure resolution engine,
* `src/app/api/game/state/route.ts` — the server-side phase state machine,
* `src/lib/relayStore.ts` (in-memory variant) — event relay and secret mailbox,
* `src/app/api/relay/state/route.ts` and its hardened variant — snapshot
  publication under optimistic version control.

JavaScript `Map` objects are embedded as association lists with first-match
lookup and set-in-place-or-append update, which matches `Map` insertion-order
semantics.  JavaScript timestamps (`Date.now()`) are passed explicitly as a
`now : Nat` parameter.  The empty string stands for a missing/falsy string
exactly where the source uses truthiness checks on strings.
-/

namespace MafiaSpec

/-- Role of a participant (src/lib/types.ts, `Role`). -/
inductive Role
| MAFIA
| VILLAGER
| DOCTOR
| DETECTIVE
deriving DecidableEq, Repr

/-- Game phase (src/lib/types.ts, `Phase`). -/
inductive Phase
| CREATED
| LOBBY
| NIGHT
| DAY
| VOTING
| RESOLUTION
| GAME_OVER
deriving DecidableEq, Repr

/-- Game status (src/lib/types.ts, `GameStatus`). -/
inductive GameStatus
| ACTIVE
| COMPLETED
deriving DecidableEq, Repr

/-- Winning side as returned by `checkWin`. -/
inductive Winner
| VILLAGERS
| MAFIA
deriving DecidableEq, Repr

/-- Game settings (src/lib/types.ts, `GameSettings`). -/
structure GameSettings where
  nightSeconds : Nat
  daySeconds : Nat
  votingSeconds : Nat
  autoAdvance : Bool
  revealRoleOnDeath : Bool
deriving DecidableEq, Repr

/-- A participant (src/lib/types.ts, `Player`).  `role` is optional: it is
`none` in every snapshot that has not been augmented with roles. -/
structure Player where
  id : String
  name : String
  role : Option Role := none
  alive : Bool
  joinedAt : Nat
  lastSeenAt : Nat
deriving DecidableEq, Repr

/-- Summary of a night resolution stored on the state (`lastResolution`). -/
structure NightSummary where
  killedPlayerId : Option String := none
  savedPlayerId : Option String := none
  killedRole : Option Role := none
deriving DecidableEq, Repr

/-- Summary of a vote resolution stored on the state (`lastVoteResult`). -/
structure VoteSummary where
  eliminatedPlayerId : Option String := none
  tie : Bool
  eliminatedRole : Option Role := none
deriving DecidableEq, Repr

/-- The shared session snapshot (src/lib/types.ts, `GameState`).  The
`revealedRoles` record is embedded as an association list in insertion
order. -/
structure GameState where
  id : String
  status : GameStatus
  phase : Phase
  currentNight : Nat
  phaseId : Option String := none
  phaseStartedAt : Nat
  settings : GameSettings
  masterPlayerId : String
  version : Nat
  players : List Player
  lastResolution : Option NightSummary := none
  lastVoteResult : Option VoteSummary := none
  winner : Option Winner := none
  revealedRoles : List (String × Role) := []
  createdAt : Nat
  updatedAt : Nat
deriving DecidableEq, Repr

/-- Night action type (src/lib/types.ts, `ActionType`). -/
inductive ActionType
| KILL
| SAVE
| INSPECT
deriving DecidableEq, Repr

/-- A night action submission (src/lib/types.ts, `Action`). -/
structure Action where
  gameId : String
  nightNumber : Nat
  playerId : String
  type : ActionType
  targetPlayerId : String
  createdAt : Nat
deriving DecidableEq, Repr

/-- A vote submission (src/lib/types.ts, `Vote`). -/
structure Vote where
  gameId : String
  phaseId : String
  voterId : String
  targetPlayerId : String
  createdAt : Nat
deriving DecidableEq, Repr

/-- A ritual confirmation record (src/lib/db-types.ts, `GameDoc.rituals`). -/
structure Ritual where
  playerId : String
  nightNumber : Nat
  createdAt : Nat
deriving DecidableEq, Repr

/-- The per-game persisted document (src/lib/db-types.ts, `GameDoc`). -/
structure GameDoc where
  state : GameState
  actions : List Action
  rituals : List Ritual
  votes : List Vote
  nextEventIndex : Nat
  updatedAt : Nat
deriving DecidableEq, Repr

/-! ## JavaScript `Map` as an association list -/

/-- `Map.get`: first matching key. -/
def mapGet {α : Type} (m : List (String × α)) (k : String) : Option α :=
  match m with
  | [] => none
  | (k0, v0) :: rest => if k0 = k then some v0 else mapGet rest k

/-- `Map.set`: replace the value at the first matching key in place, or append
a fresh entry — JS `Map` keeps insertion order. -/
def mapSet {α : Type} (m : List (String × α)) (k : String) (v : α) : List (String × α) :=
  match m with
  | [] => [(k, v)]
  | (k0, v0) :: rest => if k0 = k then (k0, v) :: rest else (k0, v0) :: mapSet rest k v

/-! ## Resolution engine (src/lib/game.ts) -/

/-- `getAlivePlayers` (src/lib/game.ts). -/
def getAlivePlayers (players : List Player) : List Player :=
  players.filter (fun player => player.alive)

/-- `getRoleCount` (src/lib/game.ts): alive players holding the given role. -/
def getRoleCount (players : List Player) (role : Role) : Nat :=
  (players.filter (fun player => player.alive && decide (player.role = some role))).length

/-- `checkWin` (src/lib/game.ts). -/
def checkWin (players : List Player) : Option Winner :=
  let mafiaCount := getRoleCount players Role.MAFIA
  let villagerCount :=
    ((getAlivePlayers players).filter (fun player => decide (player.role ≠ some Role.MAFIA))).length
  if mafiaCount = 0 then some Winner.VILLAGERS
  else if villagerCount ≤ mafiaCount then some Winner.MAFIA
  else none

/-- The vote tally loop: `counts.set(t, (counts.get(t) ?? 0) + 1)` folded over
a list of target ids. -/
def tally (ks : List String) : List (String × Nat) :=
  ks.foldl (fun m k => mapSet m k ((mapGet m k).getD 0 + 1)) []

/-- The `max` accumulation loop over the tally values (initialized to 0). -/
def maxVal (m : List (String × Nat)) : Nat :=
  m.foldl (fun acc p => max acc p.2) 0

/-- `[...counts.entries()].filter(([, c]) => c === max).map(([id]) => id)`. -/
def topKeys (m : List (String × Nat)) : List String :=
  (m.filter (fun p => decide (p.2 = maxVal m))).map Prod.fst

/-- The target ids tallied by the Mafia kill vote: KILL actions, skipping
falsy (empty) targets — `if (!action.targetPlayerId) continue`. -/
def killTargets (actions : List Action) : List String :=
  (actions.filter (fun a => decide (a.type = ActionType.KILL))).filterMap
    (fun a => if a.targetPlayerId = "" then none else some a.targetPlayerId)

/-- The kill-target selection of `resolveNightActions`: majority vote over the
Mafia KILL submissions, `undefined` on a tie or when no votes were cast. -/
def killTargetId (actions : List Action) : Option String :=
  let killVotes := tally (killTargets actions)
  if killVotes.isEmpty then none
  else
    match topKeys killVotes with
    | [t] => some t
    | _ => none

/-- The first SAVE action's target (`actions.find(a => a.type === "SAVE")`). -/
def saveTarget (actions : List Action) : Option String :=
  (actions.find? (fun a => decide (a.type = ActionType.SAVE))).map (fun a => a.targetPlayerId)

/-- One inspection outcome of `resolveNightActions`. -/
structure InspectionResult where
  detectiveId : String
  targetPlayerId : String
  targetRole : Role
deriving DecidableEq, Repr

/-- The record returned by `resolveNightActions`. -/
structure NightOutcome where
  updatedPlayers : List Player
  killedPlayerId : Option String
  savedPlayerId : Option String
  inspectionResults : List InspectionResult
deriving DecidableEq, Repr

/-- The local `killTarget` of `resolveNightActions`:
`state.players.find(p => p.id === killTargetId)`. -/
def killTargetPlayer (state : GameState) (actions : List Action) : Option Player :=
  (killTargetId actions).bind (fun t => state.players.find? (fun p => decide (p.id = t)))

/-- The local `shouldKill` of `resolveNightActions`: there is a kill target,
it is not the saved player, it is currently alive, and it is not itself Mafia.
The JS truthiness test on `killTargetId` becomes an emptiness check. -/
def shouldKillTarget (state : GameState) (actions : List Action) : Bool :=
  match killTargetId actions with
  | some t =>
    if t = "" then false
    else if saveTarget actions = some t then false
    else (getAlivePlayers state.players).any (fun p => decide (p.id = t)) &&
      !(decide ((killTargetPlayer state actions).bind Player.role = some Role.MAFIA))
  | none => false

/-- `resolveNightActions` (src/lib/game.ts).  The kill-vote tally, max loop
and top filter are factored into `killTargetId`; the locals `savedPlayerId`,
`killTarget` and `shouldKill` are the top-level defs `saveTarget`,
`killTargetPlayer` and `shouldKillTarget`. -/
def resolveNightActions (state : GameState) (actions : List Action) : NightOutcome :=
  let detectiveActions := actions.filter (fun a => decide (a.type = ActionType.INSPECT))
  let ktid := killTargetId actions
  let shouldKill := shouldKillTarget state actions
  let updatedPlayers := state.players.map (fun player =>
    if shouldKill && decide (ktid = some player.id) then { player with alive := false } else player)
  let inspectionResults := detectiveActions.filterMap (fun a =>
    (state.players.find? (fun p => decide (p.id = a.targetPlayerId))).bind (fun target =>
      target.role.map (fun r =>
        InspectionResult.mk a.playerId target.id r)))
  { updatedPlayers := updatedPlayers
    killedPlayerId := if shouldKill then ktid else none
    savedPlayerId :=
      match saveTarget actions with
      | some s => if s ≠ "" && decide (ktid = some s) then some s else none
      | none => none
    inspectionResults := inspectionResults }

/-- The record returned by `resolveVotes`. -/
structure VoteOutcome where
  updatedPlayers : List Player
  eliminatedPlayerId : Option String
  tie : Bool
deriving DecidableEq, Repr

/-- The targets of the votes whose voter is currently alive. -/
def validVoteTargets (state : GameState) (votes : List Vote) : List String :=
  (votes.filter (fun vote =>
    (getAlivePlayers state.players).any (fun p => decide (p.id = vote.voterId)))).map
    (fun vote => vote.targetPlayerId)

/-- `resolveVotes` (src/lib/game.ts).  The counts map, max loop and top filter
are the shared `tally`/`topKeys`; `tie` and the elimination guard follow the
source, with the JS truthiness test on `eliminatedPlayerId` becoming an
emptiness check. -/
def resolveVotes (state : GameState) (votes : List Vote) : VoteOutcome :=
  let counts := tally (validVoteTargets state votes)
  let topTargets := topKeys counts
  let tie := decide (topTargets.length ≠ 1)
  let eliminatedPlayerId := if tie then none else topTargets.head?
  let updatedPlayers := state.players.map (fun player =>
    match eliminatedPlayerId with
    | some e => if e ≠ "" && decide (player.id = e) then { player with alive := false } else player
    | none => player)
  { updatedPlayers := updatedPlayers
    eliminatedPlayerId := eliminatedPlayerId
    tie := tie }

/-! ## Role assignment (src/lib/game.ts) -/

/-- `calculateMafiaCount` (src/lib/game.ts).  `Math.floor(n / 5.5)` is exactly
`2 * n / 11` in natural-number division. -/
def calculateMafiaCount (totalPlayers : Nat) : Nat :=
  if totalPlayers ≤ 6 then 1
  else if totalPlayers ≤ 9 then 2
  else if totalPlayers ≤ 12 then 2
  else if totalPlayers ≤ 15 then 3
  else if totalPlayers ≤ 18 then 3
  else if totalPlayers ≤ 21 then 4
  else max 4 (2 * totalPlayers / 11)

/-- The roles array built by `assignRoles`: `mafiaCount` Mafia, one Doctor,
one Detective, the rest Villagers.  `Math.max(len - mafiaCount - 2, 0)` is
exactly truncated natural subtraction. -/
def rolesFor (shuffledLength mafiaCount : Nat) : List Role :=
  List.replicate mafiaCount Role.MAFIA ++ [Role.DOCTOR, Role.DETECTIVE] ++
    List.replicate (shuffledLength - mafiaCount - 2) Role.VILLAGER

/-- The zip of `assignRoles`:
`shuffled.map((player, index) => ({...player, role: shuffledRoles[index] ?? "VILLAGER"}))`,
written positionally — the i-th player receives the i-th role, defaulting to
Villager when the roles run out. -/
def zipRoles (xs : List Player) (rs : List Role) : List Player :=
  match xs, rs with
  | [], _ => []
  | p :: ps, r :: rest => { p with role := some r } :: zipRoles ps rest
  | p :: ps, [] => { p with role := some Role.VILLAGER } :: zipRoles ps []

def insufficientPlayersMsg : String := "At least 4 players required"

def emptyShuffleMsg : String := "TypeError: cannot set role of undefined"

/-- The assignment before the zero-Mafia safety check, with the two random
shuffles abstracted as the function parameters `shufflePlayers` and
`shuffleRoles` (the source uses `sort(() => Math.random() - 0.5)`, which
produces some permutation). -/
def assignedPre (shufflePlayers : List Player → List Player)
    (shuffleRoles : List Role → List Role) (players : List Player) : List Player :=
  let shuffled := shufflePlayers players
  let mafiaCount := calculateMafiaCount players.length
  zipRoles shuffled (shuffleRoles (rolesFor shuffled.length mafiaCount))

/-- `assignRoles` (src/lib/game.ts).  Fails for fewer than 4 players; applies
the zero-Mafia fallback `assigned[0]!.role = "MAFIA"` (which would throw on an
empty list — only reachable if `shufflePlayers` is not a permutation). -/
def assignRoles (shufflePlayers : List Player → List Player)
    (shuffleRoles : List Role → List Role) (players : List Player) :
    Except String (List Player) :=
  if players.length < 4 then Except.error insufficientPlayersMsg
  else
    let assigned := assignedPre shufflePlayers shuffleRoles players
    let finalMafiaCount :=
      (assigned.filter (fun p => decide (p.role = some Role.MAFIA))).length
    if finalMafiaCount = 0 then
      match assigned with
      | [] => Except.error emptyShuffleMsg
      | a :: rest => Except.ok ({ a with role := some Role.MAFIA } :: rest)
    else Except.ok assigned

/-! ## Server-side phase state machine (src/app/api/game/state/route.ts) -/

/-- `shouldAutoAdvance` (src/app/api/game/state/route.ts).  The source
compares `(Date.now() - phaseStartedAt) / 1000 >= seconds`; at millisecond
precision this is `seconds * 1000 ≤ now - phaseStartedAt`. -/
def shouldAutoAdvance (now : Nat) (state : GameState) : Bool :=
  if !state.settings.autoAdvance then false
  else
    let elapsedMs : Int := (now : Int) - (state.phaseStartedAt : Int)
    match state.phase with
    | Phase.NIGHT => decide ((state.settings.nightSeconds : Int) * 1000 ≤ elapsedMs)
    | Phase.DAY => decide ((state.settings.daySeconds : Int) * 1000 ≤ elapsedMs)
    | Phase.VOTING => decide ((state.settings.votingSeconds : Int) * 1000 ≤ elapsedMs)
    | _ => false

/-- `allNightActionsSubmitted` (src/app/api/game/state/route.ts): every alive
player with an action-bearing role has an action for the current night, every
other alive player has a ritual confirmation. -/
def allNightActionsSubmitted (state : GameState) (actions : List Action)
    (rituals : List Ritual) : Bool :=
  let alivePlayers := getAlivePlayers state.players
  let currentNightActions := actions.filter (fun a => decide (a.nightNumber = state.currentNight))
  let currentNightRituals := rituals.filter (fun r => decide (r.nightNumber = state.currentNight))
  alivePlayers.all (fun player =>
    match player.role with
    | some Role.MAFIA => currentNightActions.any (fun a => decide (a.playerId = player.id))
    | some Role.DOCTOR => currentNightActions.any (fun a => decide (a.playerId = player.id))
    | some Role.DETECTIVE => currentNightActions.any (fun a => decide (a.playerId = player.id))
    | _ => currentNightRituals.any (fun r => decide (r.playerId = player.id)))

/-- `allVotesSubmitted` (src/app/api/game/state/route.ts). -/
def allVotesSubmitted (state : GameState) (votes : List Vote) : Bool :=
  let alivePlayers := getAlivePlayers state.players
  let currentPhaseVotes := votes.filter (fun v => decide (some v.phaseId = state.phaseId))
  alivePlayers.all (fun player =>
    currentPhaseVotes.any (fun v => decide (v.voterId = player.id)))

/-- The `revealedRoles[p.id] = p.role` accumulation loop (object assignment,
skipping role-less players). -/
def revealAll (players : List Player) : List (String × Role) :=
  players.foldl (fun m p =>
    match p.role with
    | some r => mapSet m p.id r
    | none => m) []

/-- The NIGHT block of `processPhaseTransitions`.  The inspection-result
mailbox pushes are database side effects that do not touch the returned
state and are not modeled here. -/
def nightStep (now : Nat) (state : GameState) (actions : List Action)
    (rituals : List Ritual) : GameState :=
  if state.phase = Phase.NIGHT then
    let allSubmitted := allNightActionsSubmitted state actions rituals
    let timerExpired := shouldAutoAdvance now state
    if allSubmitted || timerExpired then
      let currentNightActions :=
        actions.filter (fun a => decide (a.nightNumber = state.currentNight))
      let resolution := resolveNightActions state currentNightActions
      let killedRole :=
        if state.settings.revealRoleOnDeath then
          resolution.killedPlayerId.bind (fun kid =>
            (state.players.find? (fun p => decide (p.id = kid))).bind Player.role)
        else none
      let s1 := { state with
        players := resolution.updatedPlayers
        phase := Phase.DAY
        phaseStartedAt := now
        lastResolution := some (NightSummary.mk resolution.killedPlayerId
          resolution.savedPlayerId killedRole)
        version := state.version + 1
        updatedAt := now }
      match checkWin s1.players with
      | some w => { s1 with
          phase := Phase.GAME_OVER
          status := GameStatus.COMPLETED
          winner := some w
          revealedRoles := revealAll s1.players
          version := s1.version + 1
          updatedAt := now }
      | none => s1
    else state
  else state

def votePhaseTag (night now : Nat) : String := "vote-" ++ toString night ++ "-" ++ toString now

/-- The DAY block of `processPhaseTransitions`. -/
def dayStep (now : Nat) (state : GameState) : GameState :=
  if state.phase = Phase.DAY then
    if shouldAutoAdvance now state then
      { state with
        phase := Phase.VOTING
        phaseId := some (votePhaseTag state.currentNight now)
        phaseStartedAt := now
        version := state.version + 1
        updatedAt := now }
    else state
  else state

/-- The VOTING block of `processPhaseTransitions`. -/
def votingStep (now : Nat) (state : GameState) (votes : List Vote) : GameState :=
  if state.phase = Phase.VOTING then
    let currentPhaseVotes := votes.filter (fun v => decide (some v.phaseId = state.phaseId))
    let allVoted := allVotesSubmitted state votes
    let timerExpired := shouldAutoAdvance now state
    if allVoted || timerExpired then
      let voteResult := resolveVotes state currentPhaseVotes
      let eliminatedRole :=
        if state.settings.revealRoleOnDeath then
          voteResult.eliminatedPlayerId.bind (fun eid =>
            if eid = "" then none
            else (state.players.find? (fun p => decide (p.id = eid))).bind Player.role)
        else none
      let s1 := { state with
        players := voteResult.updatedPlayers
        lastVoteResult := some (VoteSummary.mk voteResult.eliminatedPlayerId
          voteResult.tie eliminatedRole)
        version := state.version + 1
        updatedAt := now }
      match checkWin s1.players with
      | some w => { s1 with
          phase := Phase.GAME_OVER
          status := GameStatus.COMPLETED
          winner := some w
          revealedRoles := revealAll s1.players
          version := s1.version + 1
          updatedAt := now }
      | none => { s1 with
          phase := Phase.NIGHT
          currentNight := s1.currentNight + 1
          phaseStartedAt := now
          version := s1.version + 1
          updatedAt := now }
    else state
  else state

/-- `processPhaseTransitions` (src/app/api/game/state/route.ts): the three
phase blocks run in sequence on the evolving state. -/
def processPhaseTransitions (now : Nat) (doc : GameDoc) : GameState :=
  votingStep now (dayStep now (nightStep now doc.state doc.actions doc.rituals)) doc.votes

/-- The snapshot returned by `GET /api/game/state` for a found game: the state
after `processPhaseTransitions`, returned verbatim (no field is stripped; the
`lastSeenAt` touch is a database write that does not affect the response). -/
def gameStateRead (now : Nat) (doc : GameDoc) : GameState :=
  processPhaseTransitions now doc

/-! ## Event relay and secret mailbox (src/lib/relayStore.ts, in-memory) -/

/-- A secret mailbox message (src/lib/types.ts, `SecretMessage`). -/
inductive SecretMessage
| roleAssignment (createdAt : Nat) (role : Role)
| gameReset (createdAt : Nat)
| actionRejected (createdAt : Nat) (reason : String)
| inspectionResult (createdAt : Nat) (nightNumber : Nat) (targetPlayerId : String) (targetRole : Role)
deriving DecidableEq, Repr

/-- A relay event (src/lib/types.ts, `RelayEvent`): discriminated union keyed
by `type`, deduplicated by the client-generated `id`. -/
inductive RelayEvent
| join (id : String) (createdAt : Nat) (playerId name token : String)
| action (id : String) (createdAt : Nat) (payload : Action)
| ritual (id : String) (createdAt : Nat) (gameId : String) (nightNumber : Nat)
    (playerId promptId choice : String)
| vote (id : String) (createdAt : Nat) (payload : Vote)
deriving DecidableEq, Repr

/-- `event.id`. -/
def RelayEvent.eventId : RelayEvent → String
| RelayEvent.join i _ _ _ _ => i
| RelayEvent.action i _ _ => i
| RelayEvent.ritual i _ _ _ _ _ _ => i
| RelayEvent.vote i _ _ => i

/-- One participant's mailbox: registration token plus queued messages. -/
structure Inbox where
  token : String
  messages : List SecretMessage
deriving DecidableEq, Repr

/-- The per-game in-memory relay record (src/lib/relayStore.ts, `RelayGame`).
The `eventIds` `Set` and the `inbox` `Map` are embedded as lists in insertion
order. -/
structure RelayGame where
  state : Option GameState := none
  events : List (RelayEvent × Nat) := []
  eventIds : List String := []
  inbox : List (String × Inbox) := []
  nextEventIndex : Nat := 1
deriving DecidableEq, Repr

/-- The record `getGame` creates for an unknown game id: `nextEventIndex`
initialized to 1. -/
def emptyRelayGame : RelayGame := {}

/-- `addEvent` (src/lib/relayStore.ts): no-op returning `null` on a duplicate
`event.id`; otherwise assigns `nextEventIndex`, appends the event, records the
id, registers a mailbox on JOIN, and returns the assigned index. -/
def addEvent (game : RelayGame) (event : RelayEvent) : RelayGame × Option Nat :=
  if game.eventIds.contains event.eventId then (game, none)
  else
    let index := game.nextEventIndex
    let game1 := { game with
      events := game.events ++ [(event, index)]
      eventIds := game.eventIds ++ [event.eventId]
      nextEventIndex := game.nextEventIndex + 1 }
    let game2 :=
      match event with
      | RelayEvent.join _ _ playerId _ token =>
        if (mapGet game1.inbox playerId).isSome then game1
        else { game1 with inbox := mapSet game1.inbox playerId (Inbox.mk token []) }
      | _ => game1
    (game2, some index)

/-- `getEvents` (src/lib/relayStore.ts): the stored events with index greater
than the cursor. -/
def getEvents (game : RelayGame) (afterIndex : Nat) : List (RelayEvent × Nat) :=
  game.events.filter (fun p => decide (p.2 > afterIndex))

/-- The relay store after a sequence of submissions against a fresh game. -/
def applyEvents (events : List RelayEvent) : RelayGame :=
  events.foldl (fun g e => (addEvent g e).1) emptyRelayGame

/-- `pushInboxMessage` (src/lib/relayStore.ts): append to the registered
mailbox, `false` (`player_not_registered`) if none exists. -/
def pushInboxMessage (game : RelayGame) (playerId : String) (message : SecretMessage) :
    RelayGame × Bool :=
  match mapGet game.inbox playerId with
  | none => (game, false)
  | some ib =>
    ({ game with inbox := mapSet game.inbox playerId { ib with messages := ib.messages ++ [message] } },
      true)

/-- `pullInboxMessages` (src/lib/relayStore.ts): `none` (auth failure) when the
mailbox is missing or the token mismatches; otherwise return the full queue
and clear it. -/
def pullInboxMessages (game : RelayGame) (playerId token : String) :
    RelayGame × Option (List SecretMessage) :=
  match mapGet game.inbox playerId with
  | none => (game, none)
  | some ib =>
    if ib.token ≠ token then (game, none)
    else
      ({ game with inbox := mapSet game.inbox playerId { ib with messages := [] } },
        some ib.messages)

/-! ## Snapshot publication (POST /api/relay/state, both variants) -/

/-- The publish response: the accepted (or prior) snapshot, and whether the
publish was ignored (`ignored: true` is only present in the rejection
response; absence is modeled as `false`). -/
structure PublishResult where
  state : GameState
  ignored : Bool
deriving DecidableEq, Repr

/-- `POST` of src/app/api/relay/state/route.ts: optimistic version gate; on
acceptance the candidate is stored with a server-assigned `updatedAt`. -/
def publishSnapshot (stored : Option GameState) (now : Nat) (cand : GameState) :
    Option GameState × PublishResult :=
  match stored with
  | some current =>
    if cand.version ≤ current.version then (some current, PublishResult.mk current true)
    else
      let nextState := { cand with updatedAt := now }
      (some nextState, PublishResult.mk nextState false)
  | none =>
    let nextState := { cand with updatedAt := now }
    (some nextState, PublishResult.mk nextState false)

/-- `mergePlayers` of the hardened relay-state route: a `Map` keyed by player
id, filled with the current players then the incoming ones (incoming wins for
a same id), read out in insertion order. -/
def mergePlayers (current incoming : List Player) : List Player :=
  let byId := current.foldl (fun m p => mapSet m p.id p) []
  let byId2 := incoming.foldl (fun m p => mapSet m p.id p) byId
  byId2.map Prod.snd

/-- `POST` of the hardened relay-state route: same version gate, but an
accepted publish merges the candidate players with the stored ones so that a
publish never drops already-stored players.  (The `?? current` fallbacks on
`settings` and `phaseStartedAt` only fire for candidates missing those fields,
which cannot occur for well-typed snapshots, so they reduce to the candidate's
own fields here.) -/
def publishSnapshotMerged (stored : Option GameState) (now : Nat) (cand : GameState) :
    Option GameState × PublishResult :=
  match stored with
  | some current =>
    if cand.version ≤ current.version then (some current, PublishResult.mk current true)
    else
      let nextState := { cand with
        players := mergePlayers current.players cand.players
        updatedAt := now }
      (some nextState, PublishResult.mk nextState false)
  | none =>
    let nextState := { cand with updatedAt := now }
    (some nextState, PublishResult.mk nextState false)

/-- `GET /api/relay/state` for a stored session: returns the stored snapshot
verbatim. -/
def readSnapshot (stored : Option GameState) : Option GameState := stored

/-! ## Spec-side counting notions and concrete fixtures -/

/-- Number of occurrences of `k` in a list of target ids. -/
def countKey (ks : List String) (k : String) : Nat :=
  (ks.filter (fun x => decide (x = k))).length

/-- Invariant of the tally fold: keys are distinct and the map stores exactly
the occurrence counts of the processed prefix. -/
def GoodTally (m : List (String × Nat)) (ks : List String) : Prop :=
  (m.map Prod.fst).Nodup ∧
  ∀ k, mapGet m k = if countKey ks k = 0 then none else some (countKey ks k)

/-- Count of alive Mafia, as the spec words it. -/
def aliveMafiaCount (players : List Player) : Nat :=
  (players.filter (fun p => decide (p.alive = true ∧ p.role = some Role.MAFIA))).length

/-- Count of alive non-Mafia participants, as the spec words it. -/
def aliveNonMafiaCount (players : List Player) : Nat :=
  (players.filter (fun p => decide (p.alive = true ∧ p.role ≠ some Role.MAFIA))).length

/-- Number of players in a list holding the given role (also the
`finalMafiaCount` filter of `assignRoles`). -/
def countRole (l : List Player) (r : Role) : Nat :=
  (l.filter (fun p => decide (p.role = some r))).length

/-- Number of occurrences of a role in a role list. -/
def countRoleList (rs : List Role) (r : Role) : Nat :=
  (rs.filter (fun x => decide (x = r))).length

/-- Fixture helper: a player with fixed timestamps. -/
def mkPlayer (id name : String) (role : Option Role) (alive : Bool) : Player :=
  { id := id, name := name, role := role, alive := alive, joinedAt := 0, lastSeenAt := 0 }

/-- The default settings of `createInitialState` (src/lib/game.ts). -/
def defaultSettings : GameSettings :=
  { nightSeconds := 60, daySeconds := 120, votingSeconds := 60,
    autoAdvance := true, revealRoleOnDeath := false }

/-- Fixture helper: an active NIGHT-phase session around the given players. -/
def mkNightState (players : List Player) : GameState :=
  { id := "G1", status := GameStatus.ACTIVE, phase := Phase.NIGHT, currentNight := 1,
    phaseId := none, phaseStartedAt := 0, settings := defaultSettings,
    masterPlayerId := "A", version := 1, players := players, createdAt := 0, updatedAt := 0 }

/-- Fixture helper: a vote. -/
def mkVote (voterId targetId : String) : Vote :=
  { gameId := "G1", phaseId := "ph1", voterId := voterId, targetPlayerId := targetId,
    createdAt := 0 }

/-- Fixture helper: a KILL action. -/
def mkKill (playerId targetId : String) : Action :=
  { gameId := "G1", nightNumber := 1, playerId := playerId, type := ActionType.KILL,
    targetPlayerId := targetId, createdAt := 0 }

/-- Fixture helper: a SAVE action. -/
def mkSave (playerId targetId : String) : Action :=
  { gameId := "G1", nightNumber := 1, playerId := playerId, type := ActionType.SAVE,
    targetPlayerId := targetId, createdAt := 0 }

/-- Fixture helper: an INSPECT action. -/
def mkInspect (playerId targetId : String) : Action :=
  { gameId := "G1", nightNumber := 1, playerId := playerId, type := ActionType.INSPECT,
    targetPlayerId := targetId, createdAt := 0 }

/-- Counterexample fixture: an alive player whose id is the empty string,
alongside a normal alive voter. -/
def ghostPlayers : List Player :=
  [mkPlayer "" "Ghost" (some Role.VILLAGER) true, mkPlayer "A" "Alice" (some Role.MAFIA) true]

def ghostState : GameState := mkNightState ghostPlayers

def ghostVotes : List Vote := [mkVote "A" ""]

/-- Witness fixture: four alive players, votes A, A, A, B. -/
def fourPlayers : List Player :=
  [mkPlayer "A" "Alice" (some Role.MAFIA) true,
   mkPlayer "B" "Bob" (some Role.DOCTOR) true,
   mkPlayer "C" "Carol" (some Role.DETECTIVE) true,
   mkPlayer "D" "Dan" (some Role.VILLAGER) true]

def fourState : GameState := mkNightState fourPlayers

def votesAAAB : List Vote := [mkVote "A" "A", mkVote "B" "A", mkVote "C" "A", mkVote "D" "B"]

def votesAABB : List Vote := [mkVote "A" "A", mkVote "B" "A", mkVote "C" "B", mkVote "D" "B"]

/-- Relay-store invariant: stored event indexes are strictly increasing in
submission order and below the counter, and the dedup set records exactly the
stored events' ids. -/
def RelayInv (g : RelayGame) : Prop :=
  List.Pairwise (fun a b => a < b) (g.events.map Prod.snd) ∧
  (∀ p ∈ g.events, p.2 < g.nextEventIndex) ∧
  g.eventIds = g.events.map (fun p => p.1.eventId)

/-- Fixture: a JOIN event registering participant A with token tokA. -/
def joinEventA : RelayEvent := RelayEvent.join "E1" 0 "A" "Alice" "tokA"

/-- Fixture: a secret message. -/
def resetMsg : SecretMessage := SecretMessage.gameReset 0

/-- Fixture: the relay store after A joined and one message was pushed to A's
mailbox. -/
def inboxFixture : RelayGame :=
  (pushInboxMessage (addEvent emptyRelayGame joinEventA).1 "A" resetMsg).1

/-- Fixture: a candidate snapshot one version ahead of `fourState`. -/
def fourStateV2 : GameState := { mkNightState fourPlayers with version := 2 }

/-- Fixture for the round-trip counterexample: a stored snapshot holding two
players. -/
def curTwoPlayers : GameState :=
  mkNightState [mkPlayer "A" "Alice" none true, mkPlayer "B" "Bob" none true]

/-- Fixture for the round-trip counterexample: a newer candidate that lists
only one of the stored players. -/
def candOnePlayer : GameState :=
  { curTwoPlayers with players := [mkPlayer "A" "Alice" none true], version := 2 }

/-- Fixture: a persisted game document for an active NIGHT-phase session with
assigned roles and no submissions yet. -/
def nightDoc : GameDoc :=
  { state := mkNightState fourPlayers, actions := [], rituals := [], votes := [],
    nextEventIndex := 1, updatedAt := 0 }

/-! ## Lemmas about the association-list `Map` embedding -/

theorem mapGet_mapSet {α : Type} (m : List (String × α)) (k : String) (v : α) (q : String) :
    mapGet (mapSet m k v) q = if q = k then some v else mapGet m q := by
  induction m with
  | nil =>
    simp only [mapSet, mapGet]
    by_cases h : q = k
    · simp [h]
    · simp [h, Ne.symm h]
  | cons hd tl ih =>
    obtain ⟨k0, v0⟩ := hd
    simp only [mapSet]
    by_cases h0 : k0 = k
    · subst h0
      simp only [if_pos rfl, mapGet]
      by_cases hq : k0 = q
      · subst hq
        simp
      · simp [hq, Ne.symm hq]
    · simp only [if_neg h0, mapGet]
      by_cases hq : k0 = q
      · subst hq
        simp [Ne.symm h0, h0]
      · simp [hq, ih]

theorem keys_mapSet {α : Type} (m : List (String × α)) (k : String) (v : α) :
    (mapSet m k v).map Prod.fst =
      if k ∈ m.map Prod.fst then m.map Prod.fst else m.map Prod.fst ++ [k] := by
  induction m with
  | nil => simp [mapSet]
  | cons hd tl ih =>
    obtain ⟨k0, v0⟩ := hd
    by_cases h0 : k0 = k
    · subst h0
      simp [mapSet]
    · have hne : ¬(k = k0) := Ne.symm h0
      by_cases hk : k ∈ tl.map Prod.fst
      · simp [mapSet, h0, hne, hk, ih]
      · simp [mapSet, h0, hne, hk, ih]

theorem mem_of_mapGet_eq_some {α : Type} {m : List (String × α)} {k : String} {v : α}
    (h : mapGet m k = some v) : (k, v) ∈ m := by
  induction m with
  | nil => simp [mapGet] at h
  | cons hd tl ih =>
    obtain ⟨k0, v0⟩ := hd
    by_cases h0 : k0 = k
    · subst h0
      simp [mapGet] at h
      simp [h]
    · simp [mapGet, h0] at h
      exact List.mem_cons_of_mem _ (ih h)

theorem mapGet_eq_some_of_mem {α : Type} {m : List (String × α)}
    (hnd : (m.map Prod.fst).Nodup) {k : String} {v : α} (h : (k, v) ∈ m) :
    mapGet m k = some v := by
  induction m with
  | nil => simp at h
  | cons hd tl ih =>
    obtain ⟨k0, v0⟩ := hd
    rcases List.mem_cons.mp h with heq | htl
    · injection heq with hk hv
      subst hk
      subst hv
      simp [mapGet]
    · have hk0 : k0 ≠ k := by
        intro hh
        subst hh
        exact (List.nodup_cons.mp hnd).1 (List.mem_map.mpr ⟨(k0, v), htl, rfl⟩)
      have hnd2 : (tl.map Prod.fst).Nodup := (List.nodup_cons.mp hnd).2
      simp only [mapGet, if_neg hk0]
      exact ih hnd2 htl

/-! ## The tally (vote-count map) and its characterization -/

theorem countKey_append (ks ls : List String) (k : String) :
    countKey (ks ++ ls) k = countKey ks k + countKey ls k := by
  simp [countKey, List.filter_append]

theorem countKey_singleton (a k : String) :
    countKey [a] k = if a = k then 1 else 0 := by
  by_cases h : a = k <;> simp [countKey, h]

theorem goodTally_nil : GoodTally [] [] := by
  refine ⟨List.nodup_nil, fun k => ?_⟩
  simp [mapGet, countKey]

theorem goodTally_step {m : List (String × Nat)} {ks : List String}
    (h : GoodTally m ks) (k : String) :
    GoodTally (mapSet m k ((mapGet m k).getD 0 + 1)) (ks ++ [k]) := by
  obtain ⟨hnd, hget⟩ := h
  constructor
  · rw [keys_mapSet]
    split
    · exact hnd
    · next hk =>
      simp [List.nodup_append, hnd, hk]
  · intro q
    rw [mapGet_mapSet]
    by_cases hq : q = k
    · subst hq
      have hcount : (mapGet m q).getD 0 = countKey ks q := by
        rw [hget q]
        by_cases h0 : countKey ks q = 0 <;> simp [h0]
      simp [hcount, countKey_append, countKey_singleton]
    · have : countKey [k] q = 0 := by
        simp [countKey_singleton, Ne.symm hq]
      simp [hq, hget q, countKey_append, this]

theorem goodTally_fold (ks : List String) :
    ∀ (m : List (String × Nat)) (hist : List String), GoodTally m hist →
      GoodTally (ks.foldl (fun m k => mapSet m k ((mapGet m k).getD 0 + 1)) m) (hist ++ ks) := by
  induction ks with
  | nil =>
    intro m hist h
    simpa using h
  | cons k ks ih =>
    intro m hist h
    have h1 := goodTally_step h k
    have h2 := ih _ (hist ++ [k]) h1
    simpa [List.append_assoc] using h2

theorem goodTally_tally (ks : List String) : GoodTally (tally ks) ks := by
  simpa [tally] using goodTally_fold ks [] [] goodTally_nil

theorem foldl_max_le_init (m : List (String × Nat)) (a : Nat) :
    a ≤ m.foldl (fun acc p => max acc p.2) a := by
  induction m generalizing a with
  | nil => exact Nat.le_refl a
  | cons q tl ih => exact Nat.le_trans (Nat.le_max_left a q.2) (ih (max a q.2))

theorem foldl_max_ge_mem (m : List (String × Nat)) (a : Nat) (p : String × Nat)
    (hp : p ∈ m) : p.2 ≤ m.foldl (fun acc p => max acc p.2) a := by
  induction m generalizing a with
  | nil => simp at hp
  | cons q tl ih =>
    rcases List.mem_cons.mp hp with heq | htl
    · subst heq
      exact Nat.le_trans (Nat.le_max_right a p.2) (foldl_max_le_init tl (max a p.2))
    · exact ih (max a q.2) htl

theorem foldl_max_cases (m : List (String × Nat)) (a : Nat) :
    m.foldl (fun acc p => max acc p.2) a = a ∨
      ∃ p ∈ m, m.foldl (fun acc p => max acc p.2) a = p.2 := by
  induction m generalizing a with
  | nil => exact Or.inl rfl
  | cons q tl ih =>
    rcases ih (max a q.2) with h | ⟨p, hp, h⟩
    · rcases Nat.le_total a q.2 with hle | hle
      · refine Or.inr ⟨q, List.mem_cons_self .., ?_⟩
        simpa [Nat.max_eq_right hle] using h
      · refine Or.inl ?_
        simpa [Nat.max_eq_left hle] using h
    · exact Or.inr ⟨p, List.mem_cons_of_mem _ hp, h⟩

theorem maxVal_ge_mem {m : List (String × Nat)} {p : String × Nat} (hp : p ∈ m) :
    p.2 ≤ maxVal m :=
  foldl_max_ge_mem m 0 p hp

theorem maxVal_cases (m : List (String × Nat)) :
    maxVal m = 0 ∨ ∃ p ∈ m, maxVal m = p.2 :=
  foldl_max_cases m 0

/-- Values stored by the tally are the occurrence counts; every stored value
is positive. -/
theorem tally_mem_val {ks : List String} {p : String × Nat} (hp : p ∈ tally ks) :
    p.2 = countKey ks p.1 ∧ 0 < countKey ks p.1 := by
  obtain ⟨hnd, hget⟩ := goodTally_tally ks
  have hm : mapGet (tally ks) p.1 = some p.2 := mapGet_eq_some_of_mem hnd hp
  rw [hget p.1] at hm
  by_cases h0 : countKey ks p.1 = 0
  · simp [h0] at hm
  · simp [h0] at hm
    exact ⟨hm.symm, Nat.pos_of_ne_zero h0⟩

theorem tally_mem_of_pos {ks : List String} {k : String} (h : 0 < countKey ks k) :
    (k, countKey ks k) ∈ tally ks := by
  obtain ⟨hnd, hget⟩ := goodTally_tally ks
  apply mem_of_mapGet_eq_some
  rw [hget k]
  simp [Nat.pos_iff_ne_zero.mp h]

/-- Central characterization of the majority-vote selection: the filtered
top-entry list is the singleton `[t]` exactly when `t` holds strictly more
occurrences than every other target (and at least one). -/
theorem topKeys_tally_eq_single_iff (ks : List String) (t : String) :
    topKeys (tally ks) = [t] ↔
      (0 < countKey ks t ∧ ∀ u, u ≠ t → countKey ks u < countKey ks t) := by
  obtain ⟨hnd, hget⟩ := goodTally_tally ks
  constructor
  · intro h
    have hF := h
    unfold topKeys at hF
    rcases hfilter : (tally ks).filter (fun p => decide (p.2 = maxVal (tally ks))) with _ | ⟨p, F⟩
    · rw [hfilter] at hF
      simp at hF
    · rw [hfilter] at hF
      rcases F with _ | ⟨q, F2⟩
      · simp at hF
        have hpmem : p ∈ (tally ks).filter (fun p => decide (p.2 = maxVal (tally ks))) := by
          rw [hfilter]
          exact List.mem_cons_self ..
        have hpm := List.mem_filter.mp hpmem
        have hpmax : p.2 = maxVal (tally ks) := by simpa using hpm.2
        obtain ⟨hpv, hppos⟩ := tally_mem_val hpm.1
        have hpt : p.1 = t := hF
        refine ⟨by rw [← hpt]; exact hppos, ?_⟩
        intro u hu
        by_cases h0 : countKey ks u = 0
        · rw [h0, ← hpt]
          exact hppos
        · have humem : (u, countKey ks u) ∈ tally ks :=
            tally_mem_of_pos (Nat.pos_of_ne_zero h0)
          have hle : countKey ks u ≤ maxVal (tally ks) := maxVal_ge_mem humem
          rcases Nat.lt_or_ge (countKey ks u) (maxVal (tally ks)) with hlt | hge
          · rw [← hpt, ← hpv, hpmax]
            exact hlt
          · have heq : countKey ks u = maxVal (tally ks) := Nat.le_antisymm hle hge
            have humemF : (u, countKey ks u) ∈
                (tally ks).filter (fun p => decide (p.2 = maxVal (tally ks))) :=
              List.mem_filter.mpr ⟨humem, by simpa using heq⟩
            rw [hfilter] at humemF
            have hup : (u, countKey ks u) = p := by simpa using humemF
            have hu1 : u = p.1 := by rw [← hup]
            exact absurd (hu1.trans hpt) hu
      · exfalso
        have := congrArg List.length hF
        simp at this
  · rintro ⟨hpos, hmax⟩
    have htm : (t, countKey ks t) ∈ tally ks := tally_mem_of_pos hpos
    have hmaxval : maxVal (tally ks) = countKey ks t := by
      have hle : countKey ks t ≤ maxVal (tally ks) := maxVal_ge_mem htm
      rcases maxVal_cases (tally ks) with h0 | ⟨p, hp, hpeq⟩
      · omega
      · obtain ⟨hpv, _⟩ := tally_mem_val hp
        by_cases hpt : p.1 = t
        · rw [hpeq, hpv, hpt]
        · have : countKey ks p.1 < countKey ks t := hmax p.1 hpt
          omega
    have hmemF : (t, countKey ks t) ∈
        (tally ks).filter (fun p => decide (p.2 = maxVal (tally ks))) :=
      List.mem_filter.mpr ⟨htm, by simpa using hmaxval.symm⟩
    have hall : ∀ q ∈ (tally ks).filter (fun p => decide (p.2 = maxVal (tally ks))),
        q = (t, countKey ks t) := by
      intro q hq
      have hqm := List.mem_filter.mp hq
      obtain ⟨hqv, _⟩ := tally_mem_val hqm.1
      have hqmax : q.2 = maxVal (tally ks) := by simpa using hqm.2
      by_cases hqt : q.1 = t
      · obtain ⟨q1, q2⟩ := q
        simp_all
      · have : countKey ks q.1 < countKey ks t := hmax q.1 hqt
        omega
    have hndF : (((tally ks).filter
        (fun p => decide (p.2 = maxVal (tally ks)))).map Prod.fst).Nodup :=
      ((List.filter_sublist _).map Prod.fst).nodup hnd
    have hsingle : (tally ks).filter (fun p => decide (p.2 = maxVal (tally ks))) =
        [(t, countKey ks t)] := by
      rcases hfilter : (tally ks).filter (fun p => decide (p.2 = maxVal (tally ks))) with _ | ⟨p, F⟩
      · rw [hfilter] at hmemF
        simp at hmemF
      · rcases F with _ | ⟨q, F2⟩
        · rw [hfilter] at hall
          have hp := hall p (List.mem_cons_self ..)
          rw [hfilter, hp]
        · exfalso
          rw [hfilter] at hall hndF
          have hp := hall p (by simp)
          have hq := hall q (by simp)
          rw [hp, hq] at hndF
          simp at hndF
    unfold topKeys
    rw [hsingle]
    rfl

/-! ## Characterizations of the night and vote resolutions -/

theorem ne_empty_of_mem_killTargets {actions : List Action} {x : String}
    (h : x ∈ killTargets actions) : x ≠ "" := by
  simp only [killTargets, List.mem_filterMap] at h
  obtain ⟨a, _, hx⟩ := h
  by_cases he : a.targetPlayerId = ""
  · simp [he] at hx
  · simp [he] at hx
    exact hx ▸ he

theorem countKey_eq_zero_of_forall_ne {ks : List String} {k : String}
    (h : ∀ x ∈ ks, x ≠ k) : countKey ks k = 0 := by
  simp only [countKey, List.length_eq_zero]
  exact List.filter_eq_nil_iff.mpr (fun x hx => by simpa using h x hx)

theorem countKey_killTargets_empty (actions : List Action) :
    countKey (killTargets actions) "" = 0 :=
  countKey_eq_zero_of_forall_ne (fun _ hx => ne_empty_of_mem_killTargets hx)

/-- The kill-target selection is exactly the unique strict majority among the
(nonempty-target) KILL submissions. -/
theorem killTargetId_eq_some_iff (actions : List Action) (t : String) :
    killTargetId actions = some t ↔
      (0 < countKey (killTargets actions) t ∧
        ∀ u, u ≠ t → countKey (killTargets actions) u < countKey (killTargets actions) t) := by
  rw [← topKeys_tally_eq_single_iff]
  simp only [killTargetId]
  by_cases he : (tally (killTargets actions)).isEmpty
  · have hnil : tally (killTargets actions) = [] := by
      cases hc : tally (killTargets actions)
      · rfl
      · rw [hc] at he
        simp [List.isEmpty] at he
    simp [he, hnil, topKeys]
  · simp only [he, ite_false, Bool.false_eq_true, if_false]
    rcases hT : topKeys (tally (killTargets actions)) with _ | ⟨x, rest⟩
    · simp
    · rcases rest with _ | ⟨y, rest2⟩
      · simp
      · simp

/-- A kill target is never the empty string. -/
theorem killTargetId_ne_empty {actions : List Action} {t : String}
    (h : killTargetId actions = some t) : t ≠ "" := by
  intro ht
  subst ht
  have := (killTargetId_eq_some_iff actions "").mp h
  rw [countKey_killTargets_empty] at this
  exact Nat.lt_irrefl 0 this.1

theorem shouldKillTarget_eq_true_iff (state : GameState) (actions : List Action) :
    shouldKillTarget state actions = true ↔
      ∃ t, killTargetId actions = some t ∧ saveTarget actions ≠ some t ∧
        (∃ p ∈ state.players, p.id = t ∧ p.alive = true) ∧
        ¬((state.players.find? (fun p => decide (p.id = t))).bind Player.role = some Role.MAFIA) := by
  cases hk : killTargetId actions with
  | none => simp [shouldKillTarget, hk]
  | some t =>
    have ht : t ≠ "" := killTargetId_ne_empty hk
    simp only [shouldKillTarget, hk, if_neg ht]
    by_cases hs : saveTarget actions = some t
    · simp [hs]
    · simp only [if_neg hs, killTargetPlayer, hk, Option.bind_some]
      constructor
      · intro h
        simp only [Bool.and_eq_true, List.any_eq_true, decide_eq_true_eq, Bool.not_eq_true',
          decide_eq_false_iff_not] at h
        obtain ⟨⟨p, hp, hpid⟩, hnm⟩ := h
        have hpm := List.mem_filter.mp (by simpa [getAlivePlayers] using hp)
        refine ⟨t, rfl, hs, ⟨p, hpm.1, hpid, by simpa using hpm.2⟩, by simpa using hnm⟩
      · rintro ⟨t2, ht2, -, ⟨p, hp, hpid, hal⟩, hnm⟩
        have ht2t : t2 = t := by
          injection ht2 with hh
          exact hh.symm
        subst ht2t
        simp only [Bool.and_eq_true, List.any_eq_true, decide_eq_true_eq, Bool.not_eq_true',
          decide_eq_false_iff_not]
        refine ⟨⟨p, ?_, hpid⟩, by simpa using hnm⟩
        simp [getAlivePlayers, List.mem_filter, hp, hal]

/-- Characterization of `resolveNightActions.killedPlayerId`. -/
theorem killedPlayerId_eq_some_iff (state : GameState) (actions : List Action) (t : String) :
    (resolveNightActions state actions).killedPlayerId = some t ↔
      (killTargetId actions = some t ∧ saveTarget actions ≠ some t ∧
        (∃ p ∈ state.players, p.id = t ∧ p.alive = true) ∧
        ¬((state.players.find? (fun p => decide (p.id = t))).bind Player.role = some Role.MAFIA)) := by
  simp only [resolveNightActions]
  by_cases hsk : shouldKillTarget state actions = true
  · obtain ⟨t0, hk0, hs0, hal0, hm0⟩ := (shouldKillTarget_eq_true_iff state actions).mp hsk
    simp only [hsk, ite_true]
    constructor
    · intro h
      rw [hk0] at h
      have : t0 = t := by injection h
      subst this
      exact ⟨hk0, hs0, hal0, hm0⟩
    · rintro ⟨hk, -, -, -⟩
      exact hk
  · simp only [Bool.not_eq_true] at hsk
    simp only [hsk, Bool.false_eq_true, ite_false]
    constructor
    · intro h
      simp at h
    · rintro ⟨hk, hs, hal, hm⟩
      exfalso
      have : shouldKillTarget state actions = true :=
        (shouldKillTarget_eq_true_iff state actions).mpr ⟨t, hk, hs, hal, hm⟩
      rw [hsk] at this
      exact Bool.false_ne_true this

/-- Characterization of `resolveNightActions.savedPlayerId`: reported exactly
when the doctor's (nonempty) target coincides with the kill target. -/
theorem savedPlayerId_eq_some_iff (state : GameState) (actions : List Action) (s : String) :
    (resolveNightActions state actions).savedPlayerId = some s ↔
      (saveTarget actions = some s ∧ s ≠ "" ∧ killTargetId actions = some s) := by
  simp only [resolveNightActions]
  cases hs : saveTarget actions with
  | none => simp
  | some s0 =>
    by_cases h0 : s0 = ""
    · subst h0
      simp only [ite_eq_right_iff, Bool.and_eq_true, decide_eq_true_eq]
      constructor
      · intro h
        simp at h
      · rintro ⟨hv, hne, -⟩
        exfalso
        apply hne
        injection hv with hh
        exact hh.symm
    · by_cases hk : killTargetId actions = some s0
      · simp only [h0, hk]
        constructor
        · intro h
          simp [h0] at h
          subst h
          exact ⟨rfl, h0, rfl⟩
        · rintro ⟨hv, -, -⟩
          injection hv with hh
          subst hh
          simp [h0]
      · simp only [h0]
        constructor
        · intro h
          simp [hk] at h
        · rintro ⟨hv, -, hk2⟩
          exfalso
          apply hk
          injection hv with hh
          rw [← hh] at hk2
          exact hk2

/-- `resolveNightActions.updatedPlayers` clears exactly the killed player's
alive flag. -/
theorem nightUpdatedPlayers_eq (state : GameState) (actions : List Action) :
    (resolveNightActions state actions).updatedPlayers =
      state.players.map (fun player =>
        if (resolveNightActions state actions).killedPlayerId = some player.id
        then { player with alive := false } else player) := by
  simp only [resolveNightActions]
  by_cases hsk : shouldKillTarget state actions = true
  · simp [hsk]
  · simp only [Bool.not_eq_true] at hsk
    simp [hsk]

/-- `resolveNightActions.inspectionResults`, definitionally: one result per
INSPECT action whose target exists and has a role. -/
theorem inspectionResults_eq (state : GameState) (actions : List Action) :
    (resolveNightActions state actions).inspectionResults =
      (actions.filter (fun a => decide (a.type = ActionType.INSPECT))).filterMap (fun a =>
        (state.players.find? (fun p => decide (p.id = a.targetPlayerId))).bind (fun target =>
          target.role.map (fun r => InspectionResult.mk a.playerId target.id r))) := rfl

/-- Characterization of `resolveVotes.eliminatedPlayerId`: the unique strict
plurality among valid (alive-voter) votes. -/
theorem resolveVotes_elim_iff (state : GameState) (votes : List Vote) (t : String) :
    (resolveVotes state votes).eliminatedPlayerId = some t ↔
      (0 < countKey (validVoteTargets state votes) t ∧
        ∀ u, u ≠ t → countKey (validVoteTargets state votes) u <
          countKey (validVoteTargets state votes) t) := by
  rw [← topKeys_tally_eq_single_iff]
  rcases hT : topKeys (tally (validVoteTargets state votes)) with _ | ⟨x, rest⟩
  · simp [resolveVotes, hT]
  · rcases rest with _ | ⟨y, rest2⟩
    · simp [resolveVotes, hT]
    · simp [resolveVotes, hT]

/-- `tie` is reported exactly when nobody is eliminated. -/
theorem resolveVotes_tie_iff (state : GameState) (votes : List Vote) :
    (resolveVotes state votes).tie = true ↔
      (resolveVotes state votes).eliminatedPlayerId = none := by
  rcases hT : topKeys (tally (validVoteTargets state votes)) with _ | ⟨x, rest⟩
  · simp [resolveVotes, hT]
  · rcases rest with _ | ⟨y, rest2⟩
    · simp [resolveVotes, hT]
    · simp [resolveVotes, hT]

/-- With no elimination the player list is returned unchanged. -/
theorem resolveVotes_players_of_none (state : GameState) (votes : List Vote)
    (h : (resolveVotes state votes).eliminatedPlayerId = none) :
    (resolveVotes state votes).updatedPlayers = state.players := by
  rcases hT : topKeys (tally (validVoteTargets state votes)) with _ | ⟨x, rest⟩
  · simp [resolveVotes, hT]
  · rcases rest with _ | ⟨y, rest2⟩
    · simp [resolveVotes, hT] at h
    · simp [resolveVotes, hT]

/-- With a nonempty eliminated target, exactly that player's alive flag is
cleared. -/
theorem resolveVotes_players_of_some (state : GameState) (votes : List Vote) (t : String)
    (h : (resolveVotes state votes).eliminatedPlayerId = some t) (ht : t ≠ "") :
    (resolveVotes state votes).updatedPlayers =
      state.players.map (fun p => if p.id = t then { p with alive := false } else p) := by
  rcases hT : topKeys (tally (validVoteTargets state votes)) with _ | ⟨x, rest⟩
  · simp [resolveVotes, hT] at h
  · rcases rest with _ | ⟨y, rest2⟩
    · simp [resolveVotes, hT] at h
      subst h
      simp [resolveVotes, hT, ht]
    · simp [resolveVotes, hT] at h

/-! ## Win detection lemmas -/

theorem getRoleCount_mafia_eq (players : List Player) :
    getRoleCount players Role.MAFIA = aliveMafiaCount players := by
  unfold getRoleCount aliveMafiaCount
  congr 1
  apply List.filter_congr
  intro p _
  cases h : p.alive <;> simp [h]

theorem checkWin_villager_count_eq (players : List Player) :
    ((getAlivePlayers players).filter (fun p => decide (p.role ≠ some Role.MAFIA))).length =
      aliveNonMafiaCount players := by
  unfold getAlivePlayers aliveNonMafiaCount
  rw [List.filter_filter]
  congr 1
  apply List.filter_congr
  intro p _
  cases h : p.alive <;> simp [h]

/-- C6: `checkWin` returns VILLAGERS exactly when no Mafia is alive, MAFIA
exactly when alive Mafia are at least as many as alive non-Mafia (parity can
be reached with Villagers still alive), and no winner otherwise. -/
theorem claim_C6_checkWin (players : List Player) :
    (checkWin players = some Winner.VILLAGERS ↔ aliveMafiaCount players = 0) ∧
    (checkWin players = some Winner.MAFIA ↔
      (aliveMafiaCount players ≠ 0 ∧ aliveNonMafiaCount players ≤ aliveMafiaCount players)) ∧
    (checkWin players = none ↔
      (aliveMafiaCount players ≠ 0 ∧ aliveMafiaCount players < aliveNonMafiaCount players)) := by
  unfold checkWin
  rw [getRoleCount_mafia_eq, checkWin_villager_count_eq]
  by_cases h0 : aliveMafiaCount players = 0
  · simp [h0]
  · by_cases h1 : aliveNonMafiaCount players ≤ aliveMafiaCount players
    · simp [h0, h1]
    · simp [h0, h1]
      omega

/-- C6 sanity fixture from the spec: one alive Mafia and one alive Villager
yield a Mafia win; zero alive Mafia yield a Villager win. -/
example :
    checkWin [mkPlayer "A" "Alice" (some Role.MAFIA) true,
      mkPlayer "B" "Bob" (some Role.VILLAGER) true] = some Winner.MAFIA := by decide

example :
    checkWin [mkPlayer "A" "Alice" (some Role.VILLAGER) true,
      mkPlayer "B" "Bob" (some Role.MAFIA) false,
      mkPlayer "C" "Carol" (some Role.DOCTOR) true] = some Winner.VILLAGERS := by decide

/-! ## Claim theorems for the resolution engine -/

/-- C4: `resolveNightActions` picks as kill target the unique strict majority
among the (targeted) KILL submissions; the kill lands only on an alive,
non-Mafia target that differs from the doctor's save; `savedPlayerId` is
reported exactly when the save matched the kill target; and one inspection
result is produced per INSPECT action whose target exists and has a role. -/
theorem claim_C4_resolveNight (state : GameState) (actions : List Action) :
    (∀ t, killTargetId actions = some t ↔
      (0 < countKey (killTargets actions) t ∧
        ∀ u, u ≠ t → countKey (killTargets actions) u < countKey (killTargets actions) t)) ∧
    (∀ t, (resolveNightActions state actions).killedPlayerId = some t ↔
      (killTargetId actions = some t ∧ saveTarget actions ≠ some t ∧
        (∃ p ∈ state.players, p.id = t ∧ p.alive = true) ∧
        ¬((state.players.find? (fun p => decide (p.id = t))).bind Player.role =
          some Role.MAFIA))) ∧
    ((resolveNightActions state actions).updatedPlayers =
      state.players.map (fun player =>
        if (resolveNightActions state actions).killedPlayerId = some player.id
        then { player with alive := false } else player)) ∧
    (∀ s, (resolveNightActions state actions).savedPlayerId = some s ↔
      (saveTarget actions = some s ∧ s ≠ "" ∧ killTargetId actions = some s)) ∧
    ((resolveNightActions state actions).inspectionResults =
      (actions.filter (fun a => decide (a.type = ActionType.INSPECT))).filterMap (fun a =>
        (state.players.find? (fun p => decide (p.id = a.targetPlayerId))).bind (fun target =>
          target.role.map (fun r => InspectionResult.mk a.playerId target.id r)))) :=
  ⟨killTargetId_eq_some_iff actions,
    killedPlayerId_eq_some_iff state actions,
    nightUpdatedPlayers_eq state actions,
    savedPlayerId_eq_some_iff state actions,
    inspectionResults_eq state actions⟩

/-- C4 sanity fixtures from the spec: 2-vs-1 KILL votes kill A; a SAVE on A
cancels; a Mafia target is never lethal. -/
example :
    (resolveNightActions fourState [mkKill "X" "D", mkKill "Y" "D", mkKill "Z" "B"]).killedPlayerId
      = some "D" := by decide

example :
    (resolveNightActions fourState
      [mkKill "X" "D", mkKill "Y" "D", mkKill "Z" "B", mkSave "B" "D"]).killedPlayerId
      = none := by decide

example :
    (resolveNightActions fourState [mkKill "X" "A", mkKill "Y" "A"]).killedPlayerId
      = none := by decide

/-- C5 (amended): `resolveVotes` eliminates the unique strict plurality target
among votes cast by alive voters, reports `tie` exactly when there is none,
leaves all players untouched on a tie, and clears exactly the eliminated
player's alive flag — provided the winning target id is nonempty (a JS
truthiness guard skips the alive update for an empty-string target). -/
theorem claim_C5_resolveVotes (state : GameState) (votes : List Vote) :
    (∀ t, (resolveVotes state votes).eliminatedPlayerId = some t ↔
      (0 < countKey (validVoteTargets state votes) t ∧
        ∀ u, u ≠ t → countKey (validVoteTargets state votes) u <
          countKey (validVoteTargets state votes) t)) ∧
    ((resolveVotes state votes).tie = true ↔
      (resolveVotes state votes).eliminatedPlayerId = none) ∧
    ((resolveVotes state votes).eliminatedPlayerId = none →
      (resolveVotes state votes).updatedPlayers = state.players) ∧
    (∀ t, (resolveVotes state votes).eliminatedPlayerId = some t → t ≠ "" →
      (resolveVotes state votes).updatedPlayers =
        state.players.map (fun p => if p.id = t then { p with alive := false } else p)) :=
  ⟨resolveVotes_elim_iff state votes,
    resolveVotes_tie_iff state votes,
    resolveVotes_players_of_none state votes,
    fun t h ht => resolveVotes_players_of_some state votes t h ht⟩

/-- Witness for `claim_C5_resolveVotes` at the spec's own fixture: votes
A, A, A, B among four alive players eliminate A. -/
theorem claim_C5_resolveVotes_witness :
    (resolveVotes fourState votesAAAB).eliminatedPlayerId = some "A" ∧
    (resolveVotes fourState votesAAAB).updatedPlayers =
      fourState.players.map (fun p => if p.id = "A" then { p with alive := false } else p) :=
  ⟨by decide,
    (claim_C5_resolveVotes fourState votesAAAB).2.2.2 "A" (by decide) (by decide)⟩

/-- Counterexample to C5 as stated: the unique plurality target is the alive
player with id `""`; it is reported as eliminated with `tie = false`, yet its
alive flag is NOT cleared (the player list is returned unchanged, with the
`""` player still alive). -/
theorem claim_C5_counterexample :
    (resolveVotes ghostState ghostVotes).tie = false ∧
    (resolveVotes ghostState ghostVotes).eliminatedPlayerId = some "" ∧
    (resolveVotes ghostState ghostVotes).updatedPlayers.map (fun p => (p.id, p.alive)) =
      [("", true), ("A", true)] := by decide

/-- C5 sanity fixture from the spec: votes A, A, B, B tie and nobody dies. -/
example :
    (resolveVotes fourState votesAABB).tie = true ∧
    (resolveVotes fourState votesAABB).updatedPlayers = fourState.players := by decide

/-! ## Role-assignment lemmas -/

theorem filter_replicate_bool {α : Type} (n : Nat) (x : α) (p : α → Bool) :
    (List.replicate n x).filter p = if p x then List.replicate n x else [] := by
  induction n with
  | zero => simp
  | succ n ih =>
    rw [List.replicate_succ, List.filter_cons]
    by_cases h : p x <;> simp [h, ih, List.replicate_succ]

theorem countRoleList_replicate (n : Nat) (x r : Role) :
    countRoleList (List.replicate n x) r = if x = r then n else 0 := by
  unfold countRoleList
  rw [filter_replicate_bool]
  by_cases h : x = r <;> simp [h]

theorem countRoleList_append (rs ls : List Role) (r : Role) :
    countRoleList (rs ++ ls) r = countRoleList rs r + countRoleList ls r := by
  simp [countRoleList, List.filter_append]

theorem rolesFor_length (n m : Nat) (h : m + 2 ≤ n) : (rolesFor n m).length = n := by
  simp [rolesFor]
  omega

theorem rolesFor_count_mafia (n m : Nat) :
    countRoleList (rolesFor n m) Role.MAFIA = m := by
  simp [rolesFor, countRoleList_append, countRoleList_replicate, countRoleList]

theorem rolesFor_count_doctor (n m : Nat) :
    countRoleList (rolesFor n m) Role.DOCTOR = 1 := by
  simp [rolesFor, countRoleList_append, countRoleList_replicate, countRoleList]

theorem rolesFor_count_detective (n m : Nat) :
    countRoleList (rolesFor n m) Role.DETECTIVE = 1 := by
  simp [rolesFor, countRoleList_append, countRoleList_replicate, countRoleList]

theorem rolesFor_count_villager (n m : Nat) :
    countRoleList (rolesFor n m) Role.VILLAGER = n - m - 2 := by
  simp [rolesFor, countRoleList_append, countRoleList_replicate, countRoleList]

theorem zipRoles_length (xs : List Player) (rs : List Role) :
    (zipRoles xs rs).length = xs.length := by
  induction xs generalizing rs with
  | nil => simp [zipRoles]
  | cons p ps ih =>
    cases rs with
    | nil => simp [zipRoles, ih]
    | cons r rest => simp [zipRoles, ih]

theorem countRole_cons (q : Player) (l : List Player) (r : Role) :
    countRole (q :: l) r = (if q.role = some r then 1 else 0) + countRole l r := by
  unfold countRole
  rw [List.filter_cons]
  by_cases h : q.role = some r <;> simp [h, Nat.add_comm]

theorem countRole_zipRoles (xs : List Player) (rs : List Role) (r : Role)
    (h : rs.length = xs.length) :
    countRole (zipRoles xs rs) r = countRoleList rs r := by
  induction xs generalizing rs with
  | nil =>
    have : rs = [] := List.length_eq_zero.mp (by simpa using h)
    subst this
    simp [zipRoles, countRole, countRoleList]
  | cons p ps ih =>
    cases rs with
    | nil => simp at h
    | cons r0 rest =>
      have hlen : rest.length = ps.length := by simpa using h
      rw [zipRoles, countRole_cons, ih rest hlen]
      unfold countRoleList
      rw [List.filter_cons]
      by_cases h0 : r0 = r <;> simp [h0, Nat.add_comm]

theorem countRoleList_perm {rs ls : List Role} (h : rs.Perm ls) (r : Role) :
    countRoleList rs r = countRoleList ls r :=
  (h.filter (fun x => decide (x = r))).length_eq

theorem calculateMafiaCount_pos (n : Nat) : 1 ≤ calculateMafiaCount n := by
  unfold calculateMafiaCount
  split_ifs <;> omega

theorem calculateMafiaCount_add_two_le (n : Nat) (h : 4 ≤ n) :
    calculateMafiaCount n + 2 ≤ n := by
  unfold calculateMafiaCount
  split_ifs <;> omega

/-- C7: fewer than 4 players fail; for `n ≥ 4` and any two permutation
shuffles the assignment carries exactly `calculateMafiaCount n` Mafia, one
Doctor, one Detective and `n - mafiaCount - 2` Villagers; and whenever the
pre-fallback assignment degenerates to zero Mafia (only possible for a
non-permutation shuffle), the first assigned participant is deterministically
made Mafia. -/
theorem claim_C7_assignRoles (σ : List Player → List Player) (τ : List Role → List Role)
    (players : List Player) :
    (players.length < 4 → assignRoles σ τ players = Except.error insufficientPlayersMsg) ∧
    (4 ≤ players.length →
      (σ players).Perm players →
      (∀ rs, (τ rs).Perm rs) →
      ∃ out, assignRoles σ τ players = Except.ok out ∧
        countRole out Role.MAFIA = calculateMafiaCount players.length ∧
        countRole out Role.DOCTOR = 1 ∧
        countRole out Role.DETECTIVE = 1 ∧
        countRole out Role.VILLAGER = players.length - calculateMafiaCount players.length - 2 ∧
        out.length = players.length) ∧
    (4 ≤ players.length →
      countRole (assignedPre σ τ players) Role.MAFIA = 0 →
      ∀ p0 ps, σ players = p0 :: ps →
        ∃ out, assignRoles σ τ players = Except.ok out ∧
          out.head?.bind Player.role = some Role.MAFIA ∧
          out.head?.map Player.id = some p0.id) := by
  refine ⟨?_, ?_, ?_⟩
  · intro hlt
    simp [assignRoles, hlt]
  · intro h4 hσ hτ
    have hnlt : ¬players.length < 4 := Nat.not_lt.mpr h4
    have hlen : (σ players).length = players.length := hσ.length_eq
    have hm2 : calculateMafiaCount players.length + 2 ≤ players.length :=
      calculateMafiaCount_add_two_le players.length h4
    have hroles : (rolesFor (σ players).length (calculateMafiaCount players.length)).length =
        players.length := by
      rw [hlen]
      exact rolesFor_length _ _ hm2
    have hτperm := hτ (rolesFor (σ players).length (calculateMafiaCount players.length))
    have hτlen : (τ (rolesFor (σ players).length (calculateMafiaCount players.length))).length =
        (σ players).length := by
      rw [hτperm.length_eq, hroles, hlen]
    have hcount : ∀ r, countRole (assignedPre σ τ players) r =
        countRoleList (rolesFor (σ players).length (calculateMafiaCount players.length)) r := by
      intro r
      unfold assignedPre
      rw [countRole_zipRoles _ _ _ hτlen, countRoleList_perm hτperm]
    have hmafia : countRole (assignedPre σ τ players) Role.MAFIA =
        calculateMafiaCount players.length := by
      rw [hcount, rolesFor_count_mafia]
    have hne : ¬countRole (assignedPre σ τ players) Role.MAFIA = 0 := by
      rw [hmafia]
      have := calculateMafiaCount_pos players.length
      omega
    refine ⟨assignedPre σ τ players, ?_, hmafia, ?_, ?_, ?_, ?_⟩
    · simp only [assignRoles, if_neg hnlt]
      rw [if_neg (by exact hne)]
    · rw [hcount, rolesFor_count_doctor]
    · rw [hcount, rolesFor_count_detective]
    · rw [hcount, rolesFor_count_villager, hlen]
    · unfold assignedPre
      rw [zipRoles_length, hlen]
  · intro h4 h0 p0 ps hsp
    have hnlt : ¬players.length < 4 := Nat.not_lt.mpr h4
    have hpre : assignedPre σ τ players =
        zipRoles (p0 :: ps) (τ (rolesFor (p0 :: ps).length (calculateMafiaCount players.length))) := by
      simp only [assignedPre, hsp]
    obtain ⟨a, rest2, hassigned, haid⟩ :
        ∃ a rest2, assignedPre σ τ players = a :: rest2 ∧ a.id = p0.id := by
      rcases hr : τ (rolesFor (p0 :: ps).length (calculateMafiaCount players.length)) with _ | ⟨r, rest⟩
      · rw [hr] at hpre
        simp only [zipRoles] at hpre
        exact ⟨_, _, hpre, rfl⟩
      · rw [hr] at hpre
        simp only [zipRoles] at hpre
        exact ⟨_, _, hpre, rfl⟩
    refine ⟨{ a with role := some Role.MAFIA } :: rest2, ?_, rfl, ?_⟩
    · simp only [assignRoles, if_neg hnlt]
      rw [hassigned] at h0 ⊢
      unfold countRole at h0
      rw [if_pos h0]
    · simp [haid]

/-- Witness for `claim_C7_assignRoles` with the identity shuffles on four
players: one Mafia, one Doctor, one Detective, one Villager. -/
theorem claim_C7_assignRoles_witness :
    (∃ out, assignRoles (fun l => l) (fun l => l) fourPlayers = Except.ok out ∧
      countRole out Role.MAFIA = calculateMafiaCount fourPlayers.length ∧
      countRole out Role.DOCTOR = 1 ∧
      countRole out Role.DETECTIVE = 1 ∧
      countRole out Role.VILLAGER =
        fourPlayers.length - calculateMafiaCount fourPlayers.length - 2 ∧
      out.length = fourPlayers.length) :=
  (claim_C7_assignRoles (fun l => l) (fun l => l) fourPlayers).2.1 (by decide)
    (List.Perm.refl _) (fun rs => List.Perm.refl rs)

/-! ## Event-relay lemmas -/

theorem addEvent_dup {g : RelayGame} {e : RelayEvent}
    (h : g.eventIds.contains e.eventId = true) : addEvent g e = (g, none) := by
  have hm : e.eventId ∈ g.eventIds := by simpa using h
  simp [addEvent, hm]

theorem addEvent_fresh (g : RelayGame) (e : RelayEvent)
    (h : g.eventIds.contains e.eventId = false) :
    (addEvent g e).2 = some g.nextEventIndex ∧
    (addEvent g e).1.nextEventIndex = g.nextEventIndex + 1 ∧
    (addEvent g e).1.events = g.events ++ [(e, g.nextEventIndex)] ∧
    (addEvent g e).1.eventIds = g.eventIds ++ [e.eventId] := by
  have hm : ¬e.eventId ∈ g.eventIds := by simpa using h
  cases e with
  | join i c pid nm tok =>
    by_cases hib : (mapGet ({ g with
        events := g.events ++ [(RelayEvent.join i c pid nm tok, g.nextEventIndex)]
        eventIds := g.eventIds ++ [(RelayEvent.join i c pid nm tok).eventId]
        nextEventIndex := g.nextEventIndex + 1 } : RelayGame).inbox pid).isSome <;>
      simp [addEvent, hm, hib]
  | action i c pl => simp [addEvent, hm]
  | ritual i c g2 nn pl pr ch => simp [addEvent, hm]
  | vote i c pl => simp [addEvent, hm]

theorem relayInv_empty : RelayInv emptyRelayGame :=
  ⟨List.Pairwise.nil, by intro p hp; simp [emptyRelayGame] at hp, rfl⟩

theorem relayInv_addEvent {g : RelayGame} (hInv : RelayInv g) (e : RelayEvent) :
    RelayInv (addEvent g e).1 := by
  obtain ⟨hpw, hbound, hids⟩ := hInv
  by_cases h : g.eventIds.contains e.eventId
  · rw [addEvent_dup h]
    exact ⟨hpw, hbound, hids⟩
  · obtain ⟨-, hnext, hev, hid⟩ := addEvent_fresh g e (by simpa using h)
    refine ⟨?_, ?_, ?_⟩
    · rw [hev]
      rw [List.map_append, List.pairwise_append]
      refine ⟨hpw, by simp, ?_⟩
      intro a ha b hb
      simp at hb
      subst hb
      obtain ⟨p, hp, hpa⟩ := List.mem_map.mp ha
      exact hpa ▸ hbound p hp
    · rw [hev, hnext]
      intro p hp
      rcases List.mem_append.mp hp with hold | hnew
      · exact Nat.lt_succ_of_lt (hbound p hold)
      · simp at hnew
        subst hnew
        exact Nat.lt_succ_self _
    · rw [hid, hev, hids, List.map_append]
      simp

theorem relayInv_foldl (es : List RelayEvent) :
    ∀ g, RelayInv g → RelayInv (es.foldl (fun g e => (addEvent g e).1) g) := by
  induction es with
  | nil => intro g h; exact h
  | cons e es ih =>
    intro g h
    exact ih _ (relayInv_addEvent h e)

theorem relayInv_applyEvents (es : List RelayEvent) : RelayInv (applyEvents es) :=
  relayInv_foldl es emptyRelayGame relayInv_empty

theorem getEvents_mem_iff (g : RelayGame) (i : Nat) (p : RelayEvent × Nat) :
    p ∈ getEvents g i ↔ (p ∈ g.events ∧ i < p.2) := by
  simp [getEvents]

theorem getEvents_sorted {g : RelayGame} (h : RelayInv g) (i : Nat) :
    List.Pairwise (fun a b => a < b) ((getEvents g i).map Prod.snd) :=
  h.1.sublist ((List.filter_sublist _).map Prod.snd)

/-- C3: the relay is idempotent on event ids (a duplicate submission is a
no-op reporting duplication, so the same id is stored exactly once); a fresh
submission is assigned the per-session counter (initialized to 1) which then
increments; assigned indexes are therefore unique and strictly increasing in
submission order; and listing after a cursor returns exactly the stored
events with larger index, in ascending index order. -/
theorem claim_C3_eventRelay :
    (emptyRelayGame.nextEventIndex = 1) ∧
    (∀ g e, g.eventIds.contains e.eventId = true → addEvent g e = (g, none)) ∧
    (∀ g e, g.eventIds.contains e.eventId = false →
      (addEvent g e).2 = some g.nextEventIndex ∧
      (addEvent g e).1.nextEventIndex = g.nextEventIndex + 1 ∧
      (addEvent g e).1.events = g.events ++ [(e, g.nextEventIndex)]) ∧
    (∀ g e, addEvent (addEvent g e).1 e = ((addEvent g e).1, none)) ∧
    (∀ es, List.Pairwise (fun a b => a < b) ((applyEvents es).events.map Prod.snd)) ∧
    (∀ es i p, p ∈ getEvents (applyEvents es) i ↔ (p ∈ (applyEvents es).events ∧ i < p.2)) ∧
    (∀ es i, List.Pairwise (fun a b => a < b) ((getEvents (applyEvents es) i).map Prod.snd)) := by
  refine ⟨rfl, ?_, ?_, ?_, ?_, ?_, ?_⟩
  · intro g e h
    exact addEvent_dup h
  · intro g e h
    obtain ⟨h1, h2, h3, -⟩ := addEvent_fresh g e h
    exact ⟨h1, h2, h3⟩
  · intro g e
    by_cases h : g.eventIds.contains e.eventId
    · rw [addEvent_dup h, addEvent_dup h]
    · obtain ⟨-, -, -, hid⟩ := addEvent_fresh g e (by simpa using h)
      apply addEvent_dup
      rw [hid]
      simp
  · intro es
    exact (relayInv_applyEvents es).1
  · intro es i p
    exact getEvents_mem_iff _ i p
  · intro es i
    exact getEvents_sorted (relayInv_applyEvents es) i

/-- Witness for `claim_C3_eventRelay`: the first submission to a fresh session
is assigned index 1 and bumps the counter to 2. -/
theorem claim_C3_eventRelay_witness :
    (addEvent emptyRelayGame joinEventA).2 = some emptyRelayGame.nextEventIndex ∧
    (addEvent emptyRelayGame joinEventA).1.nextEventIndex = emptyRelayGame.nextEventIndex + 1 ∧
    (addEvent emptyRelayGame joinEventA).1.events =
      emptyRelayGame.events ++ [(joinEventA, emptyRelayGame.nextEventIndex)] :=
  claim_C3_eventRelay.2.2.1 emptyRelayGame joinEventA (by decide)

/-! ## Secret-mailbox claim -/

/-- C8: a push to an unregistered participant stores nothing and reports
`player_not_registered`; a pull with a wrong token is an auth failure
(`none`, distinguishable from the empty queue `some []`) leaving the queue
untouched; a pull with the matching token returns the full queue and clears
it, so an immediately following pull returns the empty list. -/
theorem claim_C8_mailbox (g : RelayGame) (pid token : String) (msg : SecretMessage) :
    (mapGet g.inbox pid = none → pushInboxMessage g pid msg = (g, false)) ∧
    (mapGet g.inbox pid = none → pullInboxMessages g pid token = (g, none)) ∧
    (∀ ib, mapGet g.inbox pid = some ib → ib.token ≠ token →
      pullInboxMessages g pid token = (g, none)) ∧
    (∀ ib, mapGet g.inbox pid = some ib → ib.token = token →
      (pullInboxMessages g pid token).2 = some ib.messages ∧
      (pullInboxMessages (pullInboxMessages g pid token).1 pid token).2 = some []) := by
  refine ⟨?_, ?_, ?_, ?_⟩
  · intro h
    simp [pushInboxMessage, h]
  · intro h
    simp [pullInboxMessages, h]
  · intro ib hib htok
    simp [pullInboxMessages, hib, htok]
  · intro ib hib htok
    subst htok
    constructor
    · simp [pullInboxMessages, hib]
    · simp [pullInboxMessages, hib, mapGet_mapSet]

/-- Witness for `claim_C8_mailbox`: pulling A's queued message with the right
token returns it and empties the queue for the next pull. -/
theorem claim_C8_mailbox_witness :
    (pullInboxMessages inboxFixture "A" "tokA").2 = some [resetMsg] ∧
    (pullInboxMessages (pullInboxMessages inboxFixture "A" "tokA").1 "A" "tokA").2 = some [] := by
  have h := (claim_C8_mailbox inboxFixture "A" "tokA" resetMsg).2.2.2
    { token := "tokA", messages := [resetMsg] } (by decide) rfl
  simpa using h

/-! ## Snapshot-publication claims -/

/-- C2: a publish against a stored snapshot is ignored (returning the prior
snapshot with `ignored = true`, store unchanged) exactly when its version does
not exceed the stored one, in both relay-state variants; an accepted publish
stores the candidate (with a server-assigned `updatedAt`), so the stored
version is strictly increasing across accepted publishes. -/
theorem claim_C2_publishVersionGate (now : Nat) (cand cur : GameState) :
    (cand.version ≤ cur.version →
      publishSnapshot (some cur) now cand = (some cur, PublishResult.mk cur true) ∧
      publishSnapshotMerged (some cur) now cand = (some cur, PublishResult.mk cur true)) ∧
    (cur.version < cand.version →
      publishSnapshot (some cur) now cand =
        (some { cand with updatedAt := now },
          PublishResult.mk { cand with updatedAt := now } false)) ∧
    (cur.version < cand.version →
      ∃ s, (publishSnapshotMerged (some cur) now cand).1 = some s ∧ s.version = cand.version) ∧
    (publishSnapshot none now cand =
      (some { cand with updatedAt := now },
        PublishResult.mk { cand with updatedAt := now } false)) ∧
    (∀ s, (publishSnapshot (some cur) now cand).2.ignored = false →
      (publishSnapshot (some cur) now cand).1 = some s → cur.version < s.version) ∧
    (∀ s, (publishSnapshotMerged (some cur) now cand).2.ignored = false →
      (publishSnapshotMerged (some cur) now cand).1 = some s → cur.version < s.version) := by
  by_cases h : cand.version ≤ cur.version
  · refine ⟨fun _ => ?_, fun hlt => absurd hlt (Nat.not_lt.mpr h),
      fun hlt => absurd hlt (Nat.not_lt.mpr h), ?_, ?_, ?_⟩
    · constructor <;> simp [publishSnapshot, publishSnapshotMerged, h]
    · simp [publishSnapshot]
    · intro s hig
      simp [publishSnapshot, h] at hig
    · intro s hig
      simp [publishSnapshotMerged, h] at hig
  · have hlt : cur.version < cand.version := Nat.lt_of_not_le h
    refine ⟨fun hle => absurd hle h, fun _ => ?_, fun _ => ?_, ?_, ?_, ?_⟩
    · simp [publishSnapshot, h]
    · refine ⟨{ cand with
        players := mergePlayers cur.players cand.players
        updatedAt := now }, ?_, rfl⟩
      simp [publishSnapshotMerged, h]
    · simp [publishSnapshot]
    · intro s _ hs
      simp [publishSnapshot, h] at hs
      rw [← hs]
      exact hlt
    · intro s _ hs
      simp [publishSnapshotMerged, h] at hs
      rw [← hs]
      exact hlt

/-- Witness for `claim_C2_publishVersionGate`: publishing version 2 over
stored version 1 replaces the snapshot; the version-1 store rejects a
version-1 republish. -/
theorem claim_C2_publishVersionGate_witness :
    (publishSnapshot (some (mkNightState fourPlayers)) 7 fourStateV2 =
      (some { fourStateV2 with updatedAt := 7 },
        PublishResult.mk { fourStateV2 with updatedAt := 7 } false)) ∧
    (publishSnapshot (some (mkNightState fourPlayers)) 7 (mkNightState fourPlayers) =
      (some (mkNightState fourPlayers),
        PublishResult.mk (mkNightState fourPlayers) true)) :=
  ⟨(claim_C2_publishVersionGate 7 fourStateV2 (mkNightState fourPlayers)).2.1 (by decide),
    ((claim_C2_publishVersionGate 7 (mkNightState fourPlayers) (mkNightState fourPlayers)).1
      (by decide)).1⟩

/-- C10 (amended): in the basic relay-state variant an accepted publish reads
back exactly as published apart from the server-assigned `updatedAt`; in the
hardened variant this holds for the first publish of a session (no prior
snapshot), while a later accepted publish stores the merge of the previously
stored players with the published ones, so the read-back can differ from the
published snapshot in the `players` field. -/
theorem claim_C10_roundTrip (now : Nat) (cand cur : GameState) :
    ((publishSnapshot (some cur) now cand).2.ignored = false →
      readSnapshot (publishSnapshot (some cur) now cand).1 =
        some { cand with updatedAt := now }) ∧
    (readSnapshot (publishSnapshot none now cand).1 = some { cand with updatedAt := now }) ∧
    (readSnapshot (publishSnapshotMerged none now cand).1 =
      some { cand with updatedAt := now }) := by
  refine ⟨?_, ?_, ?_⟩
  · intro hig
    by_cases h : cand.version ≤ cur.version
    · simp [publishSnapshot, h] at hig
    · simp [publishSnapshot, readSnapshot, h]
  · simp [publishSnapshot, readSnapshot]
  · simp [publishSnapshotMerged, readSnapshot]

/-- Witness for `claim_C10_roundTrip`: version 2 accepted over stored version
1 in the basic variant reads back as published except `updatedAt`. -/
theorem claim_C10_roundTrip_witness :
    readSnapshot (publishSnapshot (some (mkNightState fourPlayers)) 7 fourStateV2).1 =
      some { fourStateV2 with updatedAt := 7 } :=
  (claim_C10_roundTrip 7 fourStateV2 (mkNightState fourPlayers)).1 (by decide)

/-- Counterexample to C10 as stated: in the hardened relay-state variant an
accepted publish over a stored two-player snapshot merges the stored players
back in, so the immediately read-back snapshot differs from the published one
in `players` — a field that is not a server-assigned timestamp. -/
theorem claim_C10_counterexample :
    (publishSnapshotMerged (some curTwoPlayers) 5000 candOnePlayer).2.ignored = false ∧
    readSnapshot (publishSnapshotMerged (some curTwoPlayers) 5000 candOnePlayer).1 =
      some (publishSnapshotMerged (some curTwoPlayers) 5000 candOnePlayer).2.state ∧
    (publishSnapshotMerged (some curTwoPlayers) 5000 candOnePlayer).2.state.players ≠
      candOnePlayer.players := by decide

/-! ## Phase state machine claims -/

/-- C9 (amended): in the server state machine, NIGHT resolves exactly when
either every alive participant has submitted (an action for action-bearing
roles, a ritual otherwise) or the night timer expired with auto-advance on —
a NIGHT timeout alone does advance the phase, with the same trigger structure
as DAY and VOTING; there is no asymmetry and no separate force input. -/
theorem claim_C9_nightTimeout (now : Nat) (state : GameState) (actions : List Action)
    (rituals : List Ritual) (votes : List Vote) :
    (state.phase = Phase.NIGHT →
      ((nightStep now state actions rituals).phase ≠ Phase.NIGHT ↔
        (allNightActionsSubmitted state actions rituals = true ∨
          shouldAutoAdvance now state = true))) ∧
    (state.phase = Phase.DAY →
      ((dayStep now state).phase ≠ Phase.DAY ↔ shouldAutoAdvance now state = true)) ∧
    (state.phase = Phase.VOTING →
      ((votingStep now state votes).phase ≠ Phase.VOTING ↔
        (allVotesSubmitted state votes = true ∨ shouldAutoAdvance now state = true))) := by
  refine ⟨?_, ?_, ?_⟩
  · intro hph
    by_cases hcond : (allNightActionsSubmitted state actions rituals ||
        shouldAutoAdvance now state) = true
    · simp only [nightStep, if_pos hph, if_pos hcond]
      constructor
      · intro _
        simpa using hcond
      · intro _
        split
        · simp
        · simp
    · simp only [nightStep, if_pos hph, if_neg hcond]
      constructor
      · intro hne
        exact absurd hph hne
      · intro hor
        exfalso
        rcases hor with h1 | h1 <;> simp [h1] at hcond
  · intro hph
    by_cases hcond : shouldAutoAdvance now state = true
    · simp only [dayStep, if_pos hph, if_pos hcond]
      constructor
      · intro _
        exact hcond
      · intro _
        simp
    · simp only [dayStep, if_pos hph, if_neg hcond]
      constructor
      · intro hne
        exact absurd hph hne
      · intro h1
        exact absurd h1 hcond
  · intro hph
    by_cases hcond : (allVotesSubmitted state votes || shouldAutoAdvance now state) = true
    · simp only [votingStep, if_pos hph, if_pos hcond]
      constructor
      · intro _
        simpa using hcond
      · intro _
        split
        · simp
        · simp
    · simp only [votingStep, if_pos hph, if_neg hcond]
      constructor
      · intro hne
        exact absurd hph hne
      · intro hor
        exfalso
        rcases hor with h1 | h1 <;> simp [h1] at hcond

/-- Witness for `claim_C9_nightTimeout`: with the 60s default night timer
expired, the NIGHT phase advances even with zero submissions. -/
theorem claim_C9_nightTimeout_witness :
    (nightStep 60000 (mkNightState fourPlayers) [] []).phase ≠ Phase.NIGHT ↔
      (allNightActionsSubmitted (mkNightState fourPlayers) [] [] = true ∨
        shouldAutoAdvance 60000 (mkNightState fourPlayers) = true) :=
  (claim_C9_nightTimeout 60000 (mkNightState fourPlayers) [] [] []).1 (by decide)

/-- Counterexample to C9 as stated: an ACTIVE NIGHT session whose 60-second
timer has expired resolves to DAY with no submissions at all (readiness
false) and no force input — the claimed NIGHT/timeout asymmetry does not
exist in this state machine. -/
theorem claim_C9_counterexample :
    allNightActionsSubmitted (mkNightState fourPlayers) [] [] = false ∧
    (mkNightState fourPlayers).settings.autoAdvance = true ∧
    (nightStep 60000 (mkNightState fourPlayers) [] []).phase = Phase.DAY := by decide

/-- C1 (code bug): for an ACTIVE, NIGHT-phase session with assigned roles, the
snapshot returned by the public state read (`GET /api/game/state`, which runs
`processPhaseTransitions` and returns the state verbatim) carries every
player's role — no stripping happens, contradicting the stated invariant that
roles are absent from every distributed snapshot while the game is active. -/
theorem claim_C1_roleLeak :
    (mkNightState fourPlayers).status = GameStatus.ACTIVE ∧
    (mkNightState fourPlayers).phase = Phase.NIGHT ∧
    gameStateRead 1000 nightDoc = mkNightState fourPlayers ∧
    (gameStateRead 1000 nightDoc).players.map Player.role =
      [some Role.MAFIA, some Role.DOCTOR, some Role.DETECTIVE, some Role.VILLAGER] := by
  decide

end MafiaSpec
